import Mathlib

/-!
Verification of the DeepLab-ResNet evaluation script (`evaluate.py`).

The script wires a CLI, a checkpoint loader, an evaluation loop and a
streaming mean-IoU accumulator.  We embed:

* the streaming confusion-matrix accumulator fed by the script
  (`tf.contrib.metrics.streaming_mean_iou` called with
  `weights = cast(less_equal(gt, num_classes - 1), int32)`, evaluate.py
  lines 100-103);
* the checkpoint-loading control flow (lines 117-125), including the
  fragile `int(os.path.basename(path).split('-')[1])` parse;
* the evaluation loop (lines 130-146): output-directory creation, the
  per-step accumulator update, optional mask saving, step counting.

Machine integers are modelled as `Nat`/`Int` (label values are
non-negative class ids far below any overflow boundary); the metric's
real-valued division is modelled over `ℚ`.
-/

namespace DeeplabEval

/-- One flattened pixel pair as fed to the metric: the predicted class id
(from `pred_flatten`, evaluate.py line 100) and the ground-truth label
(from `gt`, line 101).  Labels are non-negative integers. -/
structure Pixel where
  pred : Nat
  gt : Nat
deriving DecidableEq, Repr

/-- The per-pixel weight computed at evaluate.py line 102:
`tf.cast(tf.less_equal(gt, args.num_classes - 1), tf.int32)`.
The comparison is Python/TF signed-integer arithmetic, so it is taken
over `Int`. -/
def weightOf (numClasses gt : Nat) : Nat :=
  if (gt : Int) ≤ (numClasses : Int) - 1 then 1 else 0

/-- The running confusion matrix of the streaming metric: row index is the
ground-truth class, column index the predicted class. -/
def CM : Type := List (List Nat)

instance : DecidableEq CM := by
  unfold CM
  infer_instance

/-- Modelled from the spec: the streaming metric's internal `total_cm`
variable (inside `tf.contrib.metrics.streaming_mean_iou`, not part of
`src/`) starts as an all-zero `num_classes × num_classes` count matrix. -/
def emptyCM (numClasses : Nat) : CM :=
  List.replicate numClasses (List.replicate numClasses 0)

/-- Entry `cm[g][p]` of a confusion matrix (0 outside the stored range). -/
def entry (cm : CM) (g p : Nat) : Nat :=
  (cm.getD g []).getD p 0

/-- Add `w` to entry `(g, p)` of the matrix. -/
def addAt (cm : CM) (g p w : Nat) : CM :=
  cm.set g ((cm.getD g []).set p ((cm.getD g []).getD p 0 + w))

/-- Modelled from the spec: one execution of the metric's `update_op`
(inside `tf.contrib.metrics.streaming_mean_iou`, not part of `src/`).
For every pixel it adds that pixel's weight — computed exactly as at
evaluate.py line 102 — to `confusion[gt][pred]`. -/
def updateCM (numClasses : Nat) (cm : CM) (pixels : List Pixel) : CM :=
  pixels.foldl (fun acc px => addAt acc px.gt px.pred (weightOf numClasses px.gt)) cm

/-- Sum of row `c` of the confusion matrix: pixels whose ground truth is
class `c` (among counted pixels). -/
def rowSum (cm : CM) (c : Nat) : Nat := (cm.getD c []).sum

/-- Sum of column `c` of the confusion matrix over the `numClasses` rows:
pixels predicted as class `c` (among counted pixels). -/
def colSum (numClasses : Nat) (cm : CM) (c : Nat) : Nat :=
  ∑ g ∈ Finset.range numClasses, entry cm g c

/-- Per-class union denominator of the IoU:
`row_sum(c) + col_sum(c) - confusion[c][c]`, over ℚ as the metric divides
real numbers. -/
def unionDenom (numClasses : Nat) (cm : CM) (c : Nat) : ℚ :=
  (rowSum cm c : ℚ) + (colSum numClasses cm c : ℚ) - (entry cm c c : ℚ)

/-- Modelled from the spec: the value tensor of
`tf.contrib.metrics.streaming_mean_iou` (library code, not part of
`src/`), computed the way the streaming-metric library does: count the
classes with nonzero union denominator, replace zero denominators by 1,
sum `confusion[c][c] / denominator(c)` over all classes and divide by the
count of valid classes (0 when no class is valid). -/
def meanIoU (numClasses : Nat) (cm : CM) : ℚ :=
  if ((Finset.range numClasses).filter fun c => unionDenom numClasses cm c ≠ 0).card = 0
  then 0
  else (∑ c ∈ Finset.range numClasses,
      (entry cm c c : ℚ) /
        (if 0 < unionDenom numClasses cm c then unionDenom numClasses cm c else 1)) /
    (((Finset.range numClasses).filter fun c => unionDenom numClasses cm c ≠ 0).card : ℚ)

/-- Modelled from the spec: the spec's wording of the `value` query —
"mean IoU = average of intersection/union over classes with nonzero
union (classes with zero union are excluded from the average)".  The
average is taken over exactly the set of classes whose union is nonzero. -/
def specMeanIoU (numClasses : Nat) (cm : CM) : ℚ :=
  if ((Finset.range numClasses).filter fun c => unionDenom numClasses cm c ≠ 0) = ∅
  then 0
  else (∑ c ∈ (Finset.range numClasses).filter fun c => unionDenom numClasses cm c ≠ 0,
      (entry cm c c : ℚ) / unionDenom numClasses cm c) /
    (((Finset.range numClasses).filter fun c => unionDenom numClasses cm c ≠ 0).card : ℚ)

/-- The single 2×2 batch of the spec's scenario: prediction
`[[0,1],[2,0]]` and ground truth `[[0,1],[2,1]]` flattened row-major into
parallel pixel pairs, as evaluate.py lines 100-101 do. -/
def scenarioPixels : List Pixel :=
  [Pixel.mk 0 0, Pixel.mk 1 1, Pixel.mk 2 2, Pixel.mk 0 1]

/-- The accumulator state after the scenario's single update with 3
classes. -/
def scenarioCM : CM := updateCM 3 (emptyCM 3) scenarioPixels

/-- A session-level operation of the script against the metric: either
one execution of `update_op` on a batch of pixels, or one evaluation of
the `mIoU` value tensor. -/
inductive Op where
  | updateBatch (pixels : List Pixel)
  | readValue
deriving DecidableEq

/-- Modelled from the spec: the two session-level operations the script
runs against the metric (library state, not part of `src/`): executing
`update_op` (evaluate.py line 134) folds a batch into the confusion
matrix and returns no reading; evaluating the `mIoU` value tensor
(line 143) returns the current mean IoU and performs no state update. -/
def stepOp (numClasses : Nat) (s : CM) : Op → CM × Option ℚ
  | Op.updateBatch pixels => (updateCM numClasses s pixels, none)
  | Op.readValue => (s, some (meanIoU numClasses s))

/-- Run a sequence of session operations, threading the accumulator. -/
def runOps (numClasses : Nat) (s : CM) : List Op → CM
  | [] => s
  | op :: rest => runOps numClasses (stepOp numClasses s op).1 rest

/-- Splitting a character list at every occurrence of `sep`, as Python's
`str.split(sep)` does for a one-character separator: the result always
has one more part than there are separators, and empty parts are kept. -/
def splitOnChar (sep : Char) : List Char → List (List Char)
  | [] => [[]]
  | c :: rest =>
    match splitOnChar sep rest with
    | [] => [[]]
    | h :: t => if c = sep then [] :: h :: t else (c :: h) :: t

/-- Python's `os.path.basename`: the part of the path after the last
slash. -/
def basenameChars (path : List Char) : List Char :=
  (splitOnChar '/' path).getLastD []

/-- ASCII digit test. -/
def isDigitChar (c : Char) : Bool := decide ('0' ≤ c) && decide (c ≤ '9')

/-- Numeric value of an ASCII digit. -/
def digitVal (c : Char) : Nat := c.toNat - '0'.toNat

def parseNatAux : List Char → Nat → Option Nat
  | [], acc => some acc
  | c :: rest, acc =>
    if isDigitChar c then parseNatAux rest (acc * 10 + digitVal c) else none

/-- Parse of a nonempty all-digit character run; `none` otherwise. -/
def parseNatChars : List Char → Option Nat
  | [] => none
  | c :: rest => parseNatAux (c :: rest) 0

/-- Python's `int(s)` on a string: surrounding spaces stripped, optional
sign, then at least one ASCII digit; `none` models the `ValueError` that
any other shape raises. -/
def pythonInt (s : List Char) : Option Int :=
  match ((s.dropWhile fun c => c = ' ').reverse.dropWhile fun c => c = ' ').reverse with
  | '-' :: rest => (parseNatChars rest).map fun n => -(n : Int)
  | '+' :: rest => (parseNatChars rest).map fun n => (n : Int)
  | t => (parseNatChars t).map fun n => (n : Int)

/-- The load-step derivation at evaluate.py line 121:
`int(os.path.basename(ckpt.model_checkpoint_path).split('-')[1])`.
`none` models the exception paths: `IndexError` when the split has no
second component, `ValueError` when that component is not an integer
literal. -/
def loadStepOf (path : String) : Option Int :=
  match (splitOnChar '-' (basenameChars path.data))[1]? with
  | none => none
  | some cs => pythonInt cs

/-- The checkpoint-restoring phase, evaluate.py lines 117-125.  The input
is the `model_checkpoint_path` reported by
`tf.train.get_checkpoint_state(SNAPSHOT_DIR)` (`none` when no checkpoint
state exists; the empty string is falsy in Python, so it also selects the
else-branch).  On success it returns the load step together with whether
the branch printed the no-checkpoint message; a failing filename parse
is an uncaught exception, modelled as `Except.error`. -/
def checkpointPhase (ckpt : Option String) : Except String (Int × Bool) :=
  match ckpt with
  | none => Except.ok (0, true)
  | some path =>
    if path = "" then Except.ok (0, true)
    else
      match loadStepOf path with
      | some k => Except.ok (k, false)
      | none => Except.error "checkpoint filename parse error"

/-- The CLI configuration of evaluate.py (`get_arguments`, lines 33-52). -/
structure Args where
  dataDir : String
  dataList : String
  ignoreLabel : Int
  numClasses : Nat
  numSteps : Nat
  restoreFrom : String
deriving DecidableEq, Repr

/-- The external world a run observes: the checkpoint state of the fixed
snapshot directory, whether the output directory already exists, the
per-step flattened (prediction, ground-truth) pixels produced by the
reader and the network, and any per-step failure (for example a missing
image) which the script does not catch. -/
structure Env where
  ckptState : Option String
  saveDirExists : Bool
  batches : Nat → List Pixel
  stepError : Nat → Option String

/-- The observable state left behind by a run of `main`: the assigned
load step (`none` when the run aborted before assigning it), whether the
no-checkpoint message was printed, whether the output directory exists
afterwards, the mask files written into it, the metric accumulator and
the number of completed loop iterations. -/
structure RunState where
  loadStep : Option Int
  printedNoCkpt : Bool
  saveDirExistsAfter : Bool
  savedFiles : List String
  acc : CM
  stepsCompleted : Nat

/-- The per-step mask filename of evaluate.py line 139:
`'mask' + str(step) + '.png'`. -/
def maskName (step : Nat) : String := "mask" ++ toString step ++ ".png"

/-- Effect of one successful loop iteration (evaluate.py lines 134-143):
one forward pass feeding one accumulator update, and — when the save
flag is on — one mask file written. -/
def applyStep (args : Args) (isSave : Bool) (env : Env) (st : RunState) (s : Nat) : RunState :=
  { st with
    acc := updateCM args.numClasses st.acc (env.batches s)
    savedFiles := st.savedFiles ++ (if isSave then [maskName s] else [])
    stepsCompleted := st.stepsCompleted + 1 }

/-- The evaluation loop (evaluate.py lines 133-143) over the remaining
step indices: a failing step aborts the whole run with its error, a
successful step applies `applyStep` and continues. -/
def runLoop (args : Args) (isSave : Bool) (env : Env) :
    RunState → List Nat → RunState × Option String
  | st, [] => (st, none)
  | st, s :: rest =>
    match env.stepError s with
    | some e => (st, some e)
    | none => runLoop args isSave env (applyStep args isSave env st s) rest

/-- The whole of `main` after graph construction (evaluate.py lines
105-146): local variables initialize the accumulator to zero, the
checkpoint phase runs (lines 117-125; an uncaught parse error aborts),
the output directory is created if absent (lines 130-131), and the loop
runs over `range(num_steps)` (lines 133-143).  `isSave` is the
module-level `IS_SAVE` constant of line 31. -/
def runMain (args : Args) (isSave : Bool) (env : Env) : RunState × Option String :=
  match checkpointPhase env.ckptState with
  | Except.error e =>
    ({ loadStep := none, printedNoCkpt := false, saveDirExistsAfter := env.saveDirExists,
       savedFiles := [], acc := emptyCM args.numClasses, stepsCompleted := 0 }, some e)
  | Except.ok (k, printed) =>
    runLoop args isSave env
      { loadStep := some k, printedNoCkpt := printed, saveDirExistsAfter := true,
        savedFiles := [], acc := emptyCM args.numClasses, stepsCompleted := 0 }
      (List.range args.numSteps)

/-- Concrete configuration used by the witnesses: 3 classes, 2 steps. -/
def argsW : Args :=
  { dataDir := "/data/cityscapes_dataset/cityscape"
    dataList := "/data/cityscapes_dataset/cityscape/list/eval_list.txt"
    ignoreLabel := 255
    numClasses := 3
    numSteps := 2
    restoreFrom := "./deeplab_resnet.ckpt" }

/-- Concrete environment with an empty snapshot directory and no step
failures. -/
def envNoCkpt : Env :=
  { ckptState := none
    saveDirExists := false
    batches := fun _ => scenarioPixels
    stepError := fun _ => none }

/-- Concrete environment whose checkpoint filename has no '-'-separated
step suffix. -/
def envBadCkpt : Env :=
  { ckptState := some "./snapshots/model.ckpt"
    saveDirExists := false
    batches := fun _ => scenarioPixels
    stepError := fun _ => none }

/-- Concrete environment where step 1 fails with a missing image. -/
def envFailStep : Env :=
  { ckptState := none
    saveDirExists := false
    batches := fun _ => scenarioPixels
    stepError := fun s => if s = 1 then some "missing image" else none }

lemma list_set_getD (l : List α) (i : Nat) (d : α) : l.set i (l.getD i d) = l := by
  induction l generalizing i with
  | nil => rfl
  | cons a t ih =>
    cases i with
    | zero => rfl
    | succ j =>
      show a :: t.set j (t.getD j d) = a :: t
      rw [ih]

lemma addAt_zero (cm : CM) (g p : Nat) : addAt cm g p 0 = cm := by
  unfold addAt
  rw [Nat.add_zero, list_set_getD, list_set_getD]

lemma weightOf_eq_zero (numClasses gt : Nat) (h : numClasses ≤ gt) :
    weightOf numClasses gt = 0 := by
  unfold weightOf
  rw [if_neg]
  omega

/-- CLAIM C1: updating the accumulator with pixels whose ground-truth
label is ≥ num_classes (weight zero, evaluate.py line 102) leaves the
confusion-matrix state unchanged. -/
theorem updateCM_ignored_pixels (numClasses : Nat) (cm : CM) (pixels : List Pixel)
    (h : ∀ px ∈ pixels, numClasses ≤ px.gt) :
    updateCM numClasses cm pixels = cm := by
  induction pixels generalizing cm with
  | nil => rfl
  | cons px rest ih =>
    have hpx : numClasses ≤ px.gt := h px (List.mem_cons_self px rest)
    have hrest : ∀ q ∈ rest, numClasses ≤ q.gt := fun q hq => h q (List.mem_cons_of_mem px hq)
    unfold updateCM
    rw [List.foldl_cons, weightOf_eq_zero numClasses px.gt hpx, addAt_zero]
    exact ih cm hrest

/-- Witness for C1: with 3 classes, an update consisting only of pixels
with ground-truth labels 3 and 255 leaves a concrete accumulator state
unchanged. -/
theorem updateCM_ignored_pixels_witness :
    (∀ px ∈ [Pixel.mk 0 3, Pixel.mk 2 255], 3 ≤ px.gt) ∧
      updateCM 3 [[1, 0, 0], [1, 1, 0], [0, 0, 1]] [Pixel.mk 0 3, Pixel.mk 2 255]
        = [[1, 0, 0], [1, 1, 0], [0, 0, 1]] :=
  ⟨by decide, updateCM_ignored_pixels 3 [[1, 0, 0], [1, 1, 0], [0, 0, 1]]
    [Pixel.mk 0 3, Pixel.mk 2 255] (by decide)⟩

lemma getD_le_sum (l : List Nat) (i : Nat) : l.getD i 0 ≤ l.sum := by
  induction l generalizing i with
  | nil => simp [List.getD]
  | cons a t ih =>
    cases i with
    | zero => simp [List.getD]
    | succ j =>
      have : t.getD j 0 ≤ t.sum := ih j
      simpa [List.getD] using Nat.le_trans this (Nat.le_add_left _ a)

lemma diag_le_rowSum (cm : CM) (c : Nat) : entry cm c c ≤ rowSum cm c :=
  getD_le_sum (cm.getD c []) c

lemma diag_le_colSum (numClasses : Nat) (cm : CM) (c : Nat) (hc : c < numClasses) :
    entry cm c c ≤ colSum numClasses cm c :=
  Finset.single_le_sum (f := fun g => entry cm g c) (fun _ _ => Nat.zero_le _)
    (Finset.mem_range.mpr hc)

lemma unionDenom_nonneg (numClasses : Nat) (cm : CM) (c : Nat) :
    0 ≤ unionDenom numClasses cm c := by
  have h := diag_le_rowSum cm c
  unfold unionDenom
  have hq : (entry cm c c : ℚ) ≤ (rowSum cm c : ℚ) := by exact_mod_cast h
  have hcol : (0 : ℚ) ≤ (colSum numClasses cm c : ℚ) := by positivity
  linarith

lemma diag_eq_zero_of_denom_zero (numClasses : Nat) (cm : CM) (c : Nat)
    (hc : c < numClasses) (h : unionDenom numClasses cm c = 0) :
    entry cm c c = 0 := by
  have hrow := diag_le_rowSum cm c
  have hcol := diag_le_colSum numClasses cm c hc
  have hsum : rowSum cm c + colSum numClasses cm c = entry cm c c := by
    unfold unionDenom at h
    have : (rowSum cm c : ℚ) + (colSum numClasses cm c : ℚ) = (entry cm c c : ℚ) := by
      linarith
    exact_mod_cast this
  omega

/-- CLAIM C2: the streaming-metric library's mean-IoU computation agrees
with the spec's description: for each class, intersection is the diagonal
entry and union is row sum plus column sum minus the diagonal entry, and
the mean is the average of intersection/union over exactly the classes
with nonzero union, the zero-union classes being excluded. -/
theorem meanIoU_eq_specMeanIoU (numClasses : Nat) (cm : CM) :
    meanIoU numClasses cm = specMeanIoU numClasses cm := by
  unfold meanIoU specMeanIoU
  have hsum : (∑ c ∈ Finset.range numClasses,
      (entry cm c c : ℚ) /
        (if 0 < unionDenom numClasses cm c then unionDenom numClasses cm c else 1))
      = ∑ c ∈ (Finset.range numClasses).filter (fun c => unionDenom numClasses cm c ≠ 0),
          (entry cm c c : ℚ) / unionDenom numClasses cm c := by
    rw [← Finset.sum_filter_add_sum_filter_not (Finset.range numClasses)
      (fun c => unionDenom numClasses cm c ≠ 0)]
    have h2 : (∑ c ∈ (Finset.range numClasses).filter
        (fun c => ¬ unionDenom numClasses cm c ≠ 0),
        (entry cm c c : ℚ) /
          (if 0 < unionDenom numClasses cm c then unionDenom numClasses cm c else 1)) = 0 := by
      refine Finset.sum_eq_zero ?_
      intro c hcmem
      rcases Finset.mem_filter.mp hcmem with ⟨hrange, hden⟩
      have hden0 : unionDenom numClasses cm c = 0 := not_not.mp hden
      have hd0 : entry cm c c = 0 :=
        diag_eq_zero_of_denom_zero numClasses cm c (Finset.mem_range.mp hrange) hden0
      rw [hd0]
      simp
    rw [h2, add_zero]
    refine Finset.sum_congr rfl ?_
    intro c hcmem
    rcases Finset.mem_filter.mp hcmem with ⟨_, hden⟩
    have hpos : 0 < unionDenom numClasses cm c :=
      lt_of_le_of_ne (unionDenom_nonneg numClasses cm c) (Ne.symm hden)
    rw [if_pos hpos]
  by_cases hempty :
      ((Finset.range numClasses).filter fun c => unionDenom numClasses cm c ≠ 0) = ∅
  · rw [if_pos hempty, if_pos (by rw [hempty]; exact Finset.card_empty)]
  · have hcard :
        ¬ ((Finset.range numClasses).filter fun c => unionDenom numClasses cm c ≠ 0).card = 0 :=
      fun h => hempty (Finset.card_eq_zero.mp h)
    rw [if_neg hcard, if_neg hempty, hsum]

lemma unionDenom_scenario0 : unionDenom 3 scenarioCM 0 = 2 := by
  unfold unionDenom
  rw [(by decide : rowSum scenarioCM 0 = 1), (by decide : colSum 3 scenarioCM 0 = 2),
    (by decide : entry scenarioCM 0 0 = 1)]
  norm_num

lemma unionDenom_scenario1 : unionDenom 3 scenarioCM 1 = 2 := by
  unfold unionDenom
  rw [(by decide : rowSum scenarioCM 1 = 2), (by decide : colSum 3 scenarioCM 1 = 1),
    (by decide : entry scenarioCM 1 1 = 1)]
  norm_num

lemma unionDenom_scenario2 : unionDenom 3 scenarioCM 2 = 1 := by
  unfold unionDenom
  rw [(by decide : rowSum scenarioCM 2 = 1), (by decide : colSum 3 scenarioCM 2 = 1),
    (by decide : entry scenarioCM 2 2 = 1)]
  norm_num

lemma meanIoU_scenario : meanIoU 3 scenarioCM = 2 / 3 := by
  have hf : ((Finset.range 3).filter fun c => unionDenom 3 scenarioCM c ≠ 0)
      = Finset.range 3 := by
    refine Finset.filter_true_of_mem ?_
    intro c hc
    rw [Finset.mem_range] at hc
    interval_cases c <;>
      norm_num [unionDenom_scenario0, unionDenom_scenario1, unionDenom_scenario2]
  unfold meanIoU
  rw [hf, Finset.card_range, Finset.sum_range_succ, Finset.sum_range_succ,
    Finset.sum_range_one, unionDenom_scenario0, unionDenom_scenario1, unionDenom_scenario2,
    (by decide : entry scenarioCM 0 0 = 1), (by decide : entry scenarioCM 1 1 = 1),
    (by decide : entry scenarioCM 2 2 = 1)]
  norm_num

/-- CLAIM C3, counterexample: on the scenario with num_classes = 3,
prediction `[[0,1],[2,0]]` and ground truth `[[0,1],[2,1]]`, the value
query does NOT return the claimed average of 1/1, 1/2 and 1/1 (= 5/6 ≈
0.8333): the stray prediction 0 at the mismatching pixel also inflates
class 0's union, so class 0's IoU is 1/2, not 1/1. -/
theorem scenario_mIoU_counterexample :
    ¬ (meanIoU 3 scenarioCM = (1 / 1 + 1 / 2 + 1 / 1 : ℚ) / 3) := by
  rw [meanIoU_scenario]
  norm_num

/-- CLAIM C3, amended: the scenario's single update yields the confusion
matrix `[[1,0,0],[1,1,0],[0,0,1]]` — 3 nonzero diagonal entries and 1
nonzero off-diagonal entry — and the value query returns the average of
1/2, 1/2 and 1/1, i.e. 2/3 ≈ 0.6667. -/
theorem scenario_mIoU_amended :
    scenarioCM = [[1, 0, 0], [1, 1, 0], [0, 0, 1]]
    ∧ ((Finset.range 3).filter fun c => entry scenarioCM c c ≠ 0).card = 3
    ∧ (((Finset.range 3) ×ˢ (Finset.range 3)).filter
        fun gp => gp.1 ≠ gp.2 ∧ entry scenarioCM gp.1 gp.2 ≠ 0).card = 1
    ∧ meanIoU 3 scenarioCM = (1 / 2 + 1 / 2 + 1 / 1 : ℚ) / 3 := by
  refine ⟨by decide, by decide, by decide, ?_⟩
  rw [meanIoU_scenario]
  norm_num

/-- CLAIM C4: the value query is non-mutating and idempotent — inserting
a value read anywhere in a sequence of session operations leaves the
final accumulator state unchanged (updates after a read accumulate on
exactly the pre-read state), and two consecutive reads with no
intervening update return the same value. -/
theorem readValue_pure (numClasses : Nat) (s : CM) (ops1 ops2 : List Op) :
    runOps numClasses s (ops1 ++ Op.readValue :: ops2) = runOps numClasses s (ops1 ++ ops2)
    ∧ (stepOp numClasses s Op.readValue).2
        = (stepOp numClasses (stepOp numClasses s Op.readValue).1 Op.readValue).2 := by
  constructor
  · induction ops1 generalizing s with
    | nil => rfl
    | cons op rest ih =>
      show runOps numClasses (stepOp numClasses s op).1 (rest ++ Op.readValue :: ops2)
          = runOps numClasses (stepOp numClasses s op).1 (rest ++ ops2)
      exact ih (stepOp numClasses s op).1
  · rfl

lemma runLoop_ok (args : Args) (isSave : Bool) (env : Env) :
    ∀ (l : List Nat) (st : RunState), (∀ s ∈ l, env.stepError s = none) →
      runLoop args isSave env st l = (l.foldl (applyStep args isSave env) st, none) := by
  intro l
  induction l with
  | nil => intro st _; rfl
  | cons s rest ih =>
    intro st h
    have hs : env.stepError s = none := h s (List.mem_cons_self s rest)
    show (match env.stepError s with
      | some e => (st, some e)
      | none => runLoop args isSave env (applyStep args isSave env st s) rest)
      = ((s :: rest).foldl (applyStep args isSave env) st, none)
    rw [hs, List.foldl_cons]
    exact ih (applyStep args isSave env st s) fun q hq => h q (List.mem_cons_of_mem s hq)

lemma foldl_applyStep_fields (args : Args) (isSave : Bool) (env : Env) :
    ∀ (l : List Nat) (st : RunState),
      (l.foldl (applyStep args isSave env) st).loadStep = st.loadStep
      ∧ (l.foldl (applyStep args isSave env) st).printedNoCkpt = st.printedNoCkpt
      ∧ (l.foldl (applyStep args isSave env) st).saveDirExistsAfter = st.saveDirExistsAfter
      ∧ (l.foldl (applyStep args isSave env) st).stepsCompleted
          = st.stepsCompleted + l.length
      ∧ (l.foldl (applyStep args isSave env) st).savedFiles
          = st.savedFiles ++ (if isSave then l.map maskName else [])
      ∧ (l.foldl (applyStep args isSave env) st).acc
          = l.foldl (fun a s => updateCM args.numClasses a (env.batches s)) st.acc := by
  intro l
  induction l with
  | nil =>
    intro st
    refine ⟨rfl, rfl, rfl, rfl, ?_, rfl⟩
    cases isSave <;> simp
  | cons s rest ih =>
    intro st
    obtain ⟨h1, h2, h3, h4, h5, h6⟩ := ih (applyStep args isSave env st s)
    rw [List.foldl_cons]
    refine ⟨h1, h2, h3, ?_, ?_, ?_⟩
    · rw [h4]
      show st.stepsCompleted + 1 + rest.length = st.stepsCompleted + (s :: rest).length
      rw [List.length_cons]
      omega
    · rw [h5]
      show st.savedFiles ++ (if isSave then [maskName s] else [])
          ++ (if isSave then rest.map maskName else [])
        = st.savedFiles ++ (if isSave then (s :: rest).map maskName else [])
      cases isSave <;> simp
    · rw [h6]
      rfl

lemma runLoop_abort (args : Args) (isSave : Bool) (env : Env) :
    ∀ (l1 : List Nat) (st : RunState) (k : Nat) (l2 : List Nat) (e : String),
      (∀ s ∈ l1, env.stepError s = none) → env.stepError k = some e →
      (runLoop args isSave env st (l1 ++ k :: l2)).2 = some e := by
  intro l1
  induction l1 with
  | nil =>
    intro st k l2 e _ hk
    show (match env.stepError k with
      | some e => (st, some e)
      | none => runLoop args isSave env (applyStep args isSave env st k) l2).2 = some e
    rw [hk]
  | cons s rest ih =>
    intro st k l2 e h hk
    have hs : env.stepError s = none := h s (List.mem_cons_self s rest)
    show (match env.stepError s with
      | some e => (st, some e)
      | none => runLoop args isSave env (applyStep args isSave env st s) (rest ++ k :: l2)).2
      = some e
    rw [hs]
    exact ih (applyStep args isSave env st s) k l2 e
      (fun q hq => h q (List.mem_cons_of_mem s hq)) hk

lemma runLoop_dir (args : Args) (isSave : Bool) (env : Env) :
    ∀ (l : List Nat) (st : RunState),
      (runLoop args isSave env st l).1.saveDirExistsAfter = st.saveDirExistsAfter := by
  intro l
  induction l with
  | nil => intro st; rfl
  | cons s rest ih =>
    intro st
    show (match env.stepError s with
      | some e => (st, some e)
      | none => runLoop args isSave env (applyStep args isSave env st s) rest).1.saveDirExistsAfter
      = st.saveDirExistsAfter
    cases henv : env.stepError s with
    | some e => rfl
    | none => exact ih (applyStep args isSave env st s)

lemma range_split (j n : Nat) (h : j < n) :
    ∃ l2, List.range n = List.range j ++ j :: l2 := by
  induction n with
  | zero => omega
  | succ m ih =>
    rcases Nat.lt_succ_iff_lt_or_eq.mp h with h' | h'
    · rcases ih h' with ⟨l2, hl⟩
      exact ⟨l2 ++ [m], by rw [List.range_succ, hl, List.append_assoc, List.cons_append]⟩
    · subst h'
      exact ⟨[], by rw [List.range_succ]⟩

/-- CLAIM C5: with no checkpoint in the snapshot directory, the loader
takes the message-printing branch, sets load_step to 0, the run does not
raise, and the evaluation loop still performs all `num_steps`
iterations. -/
theorem no_checkpoint_graceful (args : Args) (isSave : Bool) (env : Env)
    (hck : env.ckptState = none)
    (hsteps : ∀ s, s < args.numSteps → env.stepError s = none) :
    (runMain args isSave env).1.loadStep = some 0
    ∧ (runMain args isSave env).1.printedNoCkpt = true
    ∧ (runMain args isSave env).2 = none
    ∧ (runMain args isSave env).1.stepsCompleted = args.numSteps := by
  have hrun : runMain args isSave env = runLoop args isSave env
      { loadStep := some 0, printedNoCkpt := true, saveDirExistsAfter := true,
        savedFiles := [], acc := emptyCM args.numClasses, stepsCompleted := 0 }
      (List.range args.numSteps) := by
    unfold runMain
    rw [hck]
    rfl
  have hall : ∀ s ∈ List.range args.numSteps, env.stepError s = none :=
    fun s hs => hsteps s (List.mem_range.mp hs)
  rw [hrun, runLoop_ok args isSave env _ _ hall]
  obtain ⟨h1, h2, _, h4, _, _⟩ := foldl_applyStep_fields args isSave env
    (List.range args.numSteps)
    { loadStep := some 0, printedNoCkpt := true, saveDirExistsAfter := true,
      savedFiles := [], acc := emptyCM args.numClasses, stepsCompleted := 0 }
  refine ⟨h1, h2, rfl, h4.trans ?_⟩
  simp [List.length_range]

/-- Witness for C5: concrete run with an empty snapshot directory. -/
theorem no_checkpoint_graceful_witness :
    (runMain argsW false envNoCkpt).1.loadStep = some 0
    ∧ (runMain argsW false envNoCkpt).1.printedNoCkpt = true
    ∧ (runMain argsW false envNoCkpt).2 = none
    ∧ (runMain argsW false envNoCkpt).1.stepsCompleted = 2 :=
  no_checkpoint_graceful argsW false envNoCkpt rfl fun _ _ => rfl

/-- CLAIM C6: when a checkpoint exists whose filename yields no
'-'-separated integer step component, the load-step derivation is an
uncaught exception: the run aborts with the parse error and load_step is
never assigned — there is no fallback to 0. -/
theorem malformed_checkpoint_fatal (args : Args) (isSave : Bool) (env : Env) (path : String)
    (hck : env.ckptState = some path) (hne : path ≠ "")
    (hparse : loadStepOf path = none) :
    (runMain args isSave env).2 = some "checkpoint filename parse error"
    ∧ (runMain args isSave env).1.loadStep = none := by
  have hphase : checkpointPhase env.ckptState
      = Except.error "checkpoint filename parse error" := by
    rw [hck]
    show (if path = "" then Except.ok ((0 : Int), true)
      else
        match loadStepOf path with
        | some k => Except.ok (k, false)
        | none => Except.error "checkpoint filename parse error")
      = Except.error "checkpoint filename parse error"
    rw [if_neg hne, hparse]
  unfold runMain
  rw [hphase]
  exact ⟨rfl, rfl⟩

/-- Witness for C6: the checkpoint filename `model.ckpt` has no dash, so
the run aborts. -/
theorem malformed_checkpoint_fatal_witness :
    (runMain argsW false envBadCkpt).2 = some "checkpoint filename parse error"
    ∧ (runMain argsW false envBadCkpt).1.loadStep = none :=
  malformed_checkpoint_fatal argsW false envBadCkpt "./snapshots/model.ckpt" rfl
    (by decide) (by decide)

/-- CLAIM C7: once the checkpoint phase succeeds, the loop is purely
step-count driven: when every step succeeds it performs exactly
`num_steps` iterations, each folding one accumulator update into the
metric, and when some step fails — all earlier ones succeeding — the
whole run aborts with that step's error. -/
theorem evalLoop_runs_numSteps (args : Args) (isSave : Bool) (env : Env)
    (k : Int) (printed : Bool)
    (hck : checkpointPhase env.ckptState = Except.ok (k, printed)) :
    ((∀ s, s < args.numSteps → env.stepError s = none) →
      (runMain args isSave env).2 = none
      ∧ (runMain args isSave env).1.stepsCompleted = args.numSteps
      ∧ (runMain args isSave env).1.acc
          = (List.range args.numSteps).foldl
              (fun a s => updateCM args.numClasses a (env.batches s))
              (emptyCM args.numClasses))
    ∧ (∀ j e, j < args.numSteps → env.stepError j = some e →
        (∀ i, i < j → env.stepError i = none) →
        (runMain args isSave env).2 = some e) := by
  have hrun : runMain args isSave env = runLoop args isSave env
      { loadStep := some k, printedNoCkpt := printed, saveDirExistsAfter := true,
        savedFiles := [], acc := emptyCM args.numClasses, stepsCompleted := 0 }
      (List.range args.numSteps) := by
    unfold runMain
    rw [hck]
  constructor
  · intro hsteps
    have hall : ∀ s ∈ List.range args.numSteps, env.stepError s = none :=
      fun s hs => hsteps s (List.mem_range.mp hs)
    rw [hrun, runLoop_ok args isSave env _ _ hall]
    obtain ⟨_, _, _, h4, _, h6⟩ := foldl_applyStep_fields args isSave env
      (List.range args.numSteps)
      { loadStep := some k, printedNoCkpt := printed, saveDirExistsAfter := true,
        savedFiles := [], acc := emptyCM args.numClasses, stepsCompleted := 0 }
    refine ⟨rfl, h4.trans ?_, h6⟩
    simp [List.length_range]
  · intro j e hj he hprev
    rcases range_split j args.numSteps hj with ⟨l2, hl⟩
    rw [hrun, hl]
    exact runLoop_abort args isSave env (List.range j) _ j l2 e
      (fun s hs => hprev s (List.mem_range.mp hs)) he

/-- Witness for C7: the 2-step run completes both steps without error,
and a run whose step 1 fails aborts with that error. -/
theorem evalLoop_runs_numSteps_witness :
    (runMain argsW false envNoCkpt).2 = none
    ∧ (runMain argsW false envNoCkpt).1.stepsCompleted = 2
    ∧ (runMain argsW false envFailStep).2 = some "missing image" := by
  refine ⟨((evalLoop_runs_numSteps argsW false envNoCkpt 0 true rfl).1 fun _ _ => rfl).1,
    ((evalLoop_runs_numSteps argsW false envNoCkpt 0 true rfl).1 fun _ _ => rfl).2.1, ?_⟩
  exact (evalLoop_runs_numSteps argsW false envFailStep 0 true rfl).2 1 "missing image"
    (by decide) rfl fun i hi => by
      have hi0 : i = 0 := by omega
      rw [hi0]
      rfl

/-- CLAIM C8: with the save flag enabled and the checkpoint phase and all
steps succeeding, the run writes exactly one file named mask{step}.png
per step into the output directory — for num_steps = 2 exactly
mask0.png and mask1.png — and the output directory exists afterwards
even if it was absent before. -/
theorem masks_saved (args : Args) (env : Env) (k : Int) (printed : Bool)
    (hck : checkpointPhase env.ckptState = Except.ok (k, printed))
    (hsteps : ∀ s, s < args.numSteps → env.stepError s = none) :
    (runMain args true env).1.savedFiles = (List.range args.numSteps).map maskName
    ∧ (runMain args true env).1.saveDirExistsAfter = true
    ∧ (runMain args true env).2 = none := by
  have hrun : runMain args true env = runLoop args true env
      { loadStep := some k, printedNoCkpt := printed, saveDirExistsAfter := true,
        savedFiles := [], acc := emptyCM args.numClasses, stepsCompleted := 0 }
      (List.range args.numSteps) := by
    unfold runMain
    rw [hck]
  have hall : ∀ s ∈ List.range args.numSteps, env.stepError s = none :=
    fun s hs => hsteps s (List.mem_range.mp hs)
  rw [hrun, runLoop_ok args true env _ _ hall]
  obtain ⟨_, _, h3, _, h5, _⟩ := foldl_applyStep_fields args true env
    (List.range args.numSteps)
    { loadStep := some k, printedNoCkpt := printed, saveDirExistsAfter := true,
      savedFiles := [], acc := emptyCM args.numClasses, stepsCompleted := 0 }
  refine ⟨h5.trans ?_, h3, rfl⟩
  simp

/-- Witness for C8: saving enabled for 2 steps writes mask0.png and
mask1.png into the (freshly created) output directory. -/
theorem masks_saved_witness :
    (runMain argsW true envNoCkpt).1.savedFiles = ["mask0.png", "mask1.png"]
    ∧ (runMain argsW true envNoCkpt).1.saveDirExistsAfter = true :=
  ⟨(masks_saved argsW envNoCkpt 0 true rfl fun _ _ => rfl).1.trans (by decide),
    (masks_saved argsW envNoCkpt 0 true rfl fun _ _ => rfl).2.1⟩

lemma applyStep_numClasses_only (a1 a2 : Args) (h : a1.numClasses = a2.numClasses)
    (isSave : Bool) (env : Env) (st : RunState) (s : Nat) :
    applyStep a1 isSave env st s = applyStep a2 isSave env st s := by
  unfold applyStep
  rw [h]

lemma runLoop_numClasses_only (a1 a2 : Args) (h : a1.numClasses = a2.numClasses)
    (isSave : Bool) (env : Env) :
    ∀ (l : List Nat) (st : RunState),
      runLoop a1 isSave env st l = runLoop a2 isSave env st l := by
  intro l
  induction l with
  | nil => intro st; rfl
  | cons s rest ih =>
    intro st
    show (match env.stepError s with
      | some e => (st, some e)
      | none => runLoop a1 isSave env (applyStep a1 isSave env st s) rest)
      = (match env.stepError s with
      | some e => (st, some e)
      | none => runLoop a2 isSave env (applyStep a2 isSave env st s) rest)
    cases env.stepError s with
    | some e => rfl
    | none =>
      rw [applyStep_numClasses_only a1 a2 h]
      exact ih _

lemma runMain_cong (a1 a2 : Args) (hc : a1.numClasses = a2.numClasses)
    (hn : a1.numSteps = a2.numSteps) (isSave : Bool) (env : Env) :
    runMain a1 isSave env = runMain a2 isSave env := by
  unfold runMain
  cases checkpointPhase env.ckptState with
  | error e => rw [hc]
  | ok v =>
    obtain ⟨k, printed⟩ := v
    show runLoop a1 isSave env
        { loadStep := some k, printedNoCkpt := printed, saveDirExistsAfter := true,
          savedFiles := [], acc := emptyCM a1.numClasses, stepsCompleted := 0 }
        (List.range a1.numSteps)
      = runLoop a2 isSave env
        { loadStep := some k, printedNoCkpt := printed, saveDirExistsAfter := true,
          savedFiles := [], acc := emptyCM a2.numClasses, stepsCompleted := 0 }
        (List.range a2.numSteps)
    rw [hc, hn, runLoop_numClasses_only a1 a2 hc]

/-- CLAIM C9: the --restore-from flag is dead: two runs differing only in
its value are indistinguishable, checkpoint loading included, because
the checkpoint is read from the fixed snapshot directory. -/
theorem restoreFrom_unused (args : Args) (isSave : Bool) (env : Env) (r1 r2 : String) :
    runMain { args with restoreFrom := r1 } isSave env
      = runMain { args with restoreFrom := r2 } isSave env :=
  runMain_cong { args with restoreFrom := r1 } { args with restoreFrom := r2 }
    rfl rfl isSave env

/-- CLAIM C10, counterexample: a run whose checkpoint filename fails the
load-step parse aborts before reaching the directory-creation statement,
so after that run the output directory still does not exist — the claim
is false for runs that abort during checkpoint loading. -/
theorem outputDir_counterexample :
    (runMain argsW false envBadCkpt).1.saveDirExistsAfter = false
    ∧ (runMain argsW false envBadCkpt).2 ≠ none := by
  refine ⟨by decide, by decide⟩

/-- CLAIM C10, amended: on every run whose checkpoint phase completes
(restored checkpoint or none found alike), the output directory is
created if absent before the evaluation loop starts, so it exists
afterwards even when the mask-saving flag is disabled, whether or not the
loop itself finishes. -/
theorem outputDir_created_after_checkpoint (args : Args) (isSave : Bool) (env : Env)
    (k : Int) (printed : Bool)
    (hck : checkpointPhase env.ckptState = Except.ok (k, printed)) :
    (runMain args isSave env).1.saveDirExistsAfter = true := by
  have hrun : runMain args isSave env = runLoop args isSave env
      { loadStep := some k, printedNoCkpt := printed, saveDirExistsAfter := true,
        savedFiles := [], acc := emptyCM args.numClasses, stepsCompleted := 0 }
      (List.range args.numSteps) := by
    unfold runMain
    rw [hck]
  rw [hrun]
  exact runLoop_dir args isSave env (List.range args.numSteps) _

/-- Witness for C10's amended claim: a run with no checkpoint, saving
disabled and an initially absent output directory still ends with the
directory existing. -/
theorem outputDir_created_witness :
    (runMain argsW false envNoCkpt).1.saveDirExistsAfter = true :=
  outputDir_created_after_checkpoint argsW false envNoCkpt 0 true rfl

end DeeplabEval
